import Mathlib

/-!
Verification development for the agent-orchestration repository
(agent state machine, reflection-driven revision loop, tool registry
with retry, calculator tool).

The Python sources are shallowly embedded: dataclasses become
structures, mutating methods become functions returning the new state,
Python floats are modelled as exact rationals (every claim value is
exactly representable), and fallible code returns Except.  Fields that
cannot influence any claim (wall-clock timestamps, the open metadata
dictionary of a reasoning step) are omitted from the embedding.
-/

/-! ## agent/memory.py -/

/-- One record of the reasoning trace (`ReasoningStep` dataclass).
The `metadata` dictionary and the creation timestamp are omitted. -/
structure ReasoningStep where
  step_number : Nat
  step_type : String
  content : String
deriving Repr, DecidableEq

/-- The `AgentState` dataclass: one mutable record per query run. -/
structure AgentState where
  query : String
  reasoning_steps : List ReasoningStep := []
  current_answer : Option String := none
  confidence_score : ℚ := 0
  iteration : Nat := 0
  max_iterations : Nat := 5
  is_complete : Bool := false
  reflection_feedback : List String := []
deriving Repr, DecidableEq

/-- `AgentState.add_step`: appends a step numbered `len(steps)+1`. -/
def AgentState.add_step (s : AgentState) (step_type : String) (content : String) :
    AgentState :=
  { s with reasoning_steps :=
      s.reasoning_steps ++ [⟨s.reasoning_steps.length + 1, step_type, content⟩] }

/-- `AgentState.get_steps_by_type`: all steps with the given tag. -/
def AgentState.get_steps_by_type (s : AgentState) (step_type : String) :
    List ReasoningStep :=
  s.reasoning_steps.filter (fun st => st.step_type == step_type)

/-- `AgentState.increment_iteration`: `iteration += 1`, then
`is_complete = True` if `iteration >= max_iterations`. -/
def AgentState.increment_iteration (s : AgentState) : AgentState :=
  let s' := { s with iteration := s.iteration + 1 }
  if s'.iteration ≥ s'.max_iterations then { s' with is_complete := true } else s'

/-- `AgentState.should_continue`: false if complete or the bound is hit. -/
def AgentState.should_continue (s : AgentState) : Bool :=
  if s.is_complete then false
  else if s.iteration ≥ s.max_iterations then false
  else true

/-- A fresh state as `run` builds it: `AgentState(query=query, max_iterations=m)`. -/
def AgentState.init (query : String) (m : Nat) : AgentState :=
  { query := query, max_iterations := m }

/-- `increment_iteration` called `k` times in a row. -/
def AgentState.incrementTimes (s : AgentState) : Nat → AgentState
  | 0 => s
  | k + 1 => (s.incrementTimes k).increment_iteration

@[simp] theorem AgentState.increment_iteration_iteration (s : AgentState) :
    s.increment_iteration.iteration = s.iteration + 1 := by
  simp only [AgentState.increment_iteration]
  split <;> rfl

@[simp] theorem AgentState.increment_iteration_max (s : AgentState) :
    s.increment_iteration.max_iterations = s.max_iterations := by
  simp only [AgentState.increment_iteration]
  split <;> rfl

theorem AgentState.increment_iteration_complete (s : AgentState) :
    s.increment_iteration.is_complete =
      (s.is_complete || decide (s.max_iterations ≤ s.iteration + 1)) := by
  simp only [AgentState.increment_iteration]
  split <;> simp_all

@[simp] theorem AgentState.add_step_iteration (s : AgentState) (t c : String) :
    (s.add_step t c).iteration = s.iteration := rfl

@[simp] theorem AgentState.add_step_max (s : AgentState) (t c : String) :
    (s.add_step t c).max_iterations = s.max_iterations := rfl

@[simp] theorem AgentState.add_step_complete (s : AgentState) (t c : String) :
    (s.add_step t c).is_complete = s.is_complete := rfl

theorem AgentState.should_continue_iff (s : AgentState) :
    s.should_continue = true ↔
      (s.is_complete = false ∧ s.iteration < s.max_iterations) := by
  unfold AgentState.should_continue
  split
  · simp_all
  · split <;> simp_all

/-! ## agent/reflection.py -/

/-- The `ReflectionResult` dataclass (critic output). -/
structure ReflectionResult where
  confidence_score : ℚ
  is_satisfactory : Bool
  strengths : List String
  weaknesses : List String
  suggestions : List String
  missing_information : List String
deriving Repr, DecidableEq

/-- Default of `MIN_CONFIDENCE_SCORE` in rag/config.py. -/
def MIN_CONFIDENCE_SCORE : ℚ := 7 / 10

/-- `SelfReflectionCritic.should_revise`, parameterised by the configured
minimum confidence threshold. -/
def SelfReflectionCritic.should_revise (minConfidence : ℚ) (r : ReflectionResult) :
    Bool :=
  if r.confidence_score < minConfidence then true
  else if !r.is_satisfactory then true
  else if r.weaknesses.length > r.strengths.length then true
  else false

/-! ## agent/reasoning.py -/

/-- The `TaskDecomposition` dataclass (planner output). -/
structure TaskDecomposition where
  main_goal : String
  sub_tasks : List String
  required_information : List String
  complexity : String
deriving Repr, DecidableEq

/-- The JSON object produced by the model call inside
`ReasoningPlanner.plan`, after `json.loads`: each of the four expected
keys may be absent. -/
structure PlannerJson where
  main_goal : Option String := none
  sub_tasks : Option (List String) := none
  required_information : Option (List String) := none
  complexity : Option String := none
deriving Repr, DecidableEq

/-- The parsing tail of `ReasoningPlanner.plan`: the code indexes the
parsed dictionary directly (`result["main_goal"]`, ...), so a missing
key raises `KeyError`; embedded as an `Except` value. -/
def ReasoningPlanner.planParse (r : PlannerJson) : Except String TaskDecomposition :=
  match r.main_goal with
  | none => .error "KeyError: main_goal"
  | some g =>
    match r.sub_tasks with
    | none => .error "KeyError: sub_tasks"
    | some st =>
      match r.required_information with
      | none => .error "KeyError: required_information"
      | some ri =>
        match r.complexity with
        | none => .error "KeyError: complexity"
        | some cx => .ok ⟨g, st, ri, cx⟩

/-! ## Claims about AgentState (C1, C8) -/

theorem AgentState.incrementTimes_max (s : AgentState) (k : Nat) :
    (s.incrementTimes k).max_iterations = s.max_iterations := by
  induction k with
  | zero => rfl
  | succ k ih => simp [AgentState.incrementTimes, ih]

/-- C1: from a fresh state with `max_iterations = N` (`N ≥ 1`) and
`iteration = 0`, `k` repeated calls to `increment_iteration` leave the
counter at exactly `k` (each call adds exactly one), and `is_complete`
is true precisely when the counter has reached `N` — never earlier, the
bound being inclusive-reached. -/
theorem C1_increment_reaches_bound (q : String) (N k : Nat) (hN : 1 ≤ N) :
    ((AgentState.init q N).incrementTimes k).iteration = k ∧
      (((AgentState.init q N).incrementTimes k).is_complete = true ↔ N ≤ k) := by
  induction k with
  | zero =>
    refine ⟨rfl, ?_⟩
    simp only [AgentState.incrementTimes]
    constructor
    · intro h; exact absurd h (by simp [AgentState.init])
    · intro h; omega
  | succ k ih =>
    obtain ⟨h1, h2⟩ := ih
    have hmax : ((AgentState.init q N).incrementTimes k).max_iterations = N := by
      rw [AgentState.incrementTimes_max]; rfl
    constructor
    · simp [AgentState.incrementTimes, h1]
    · simp only [AgentState.incrementTimes, AgentState.increment_iteration_complete,
        hmax, h1, Bool.or_eq_true, decide_eq_true_eq]
      rw [h2]
      omega

/-- C1 witness: concrete instance at `N = 2`, `k = 3`. -/
theorem C1_increment_reaches_bound_witness :
    ((AgentState.init "q" 2).incrementTimes 3).iteration = 3 ∧
      (((AgentState.init "q" 2).incrementTimes 3).is_complete = true ↔ 2 ≤ 3) :=
  C1_increment_reaches_bound "q" 2 3 (by norm_num)

/-- The concrete state refuting unconditional preservation of
`iteration ≤ max_iterations` by `increment_iteration`: the counter
already equals the bound. -/
def C8cexState : AgentState :=
  { query := "q", iteration := 5, max_iterations := 5, is_complete := true }

/-- C8 counterexample: `increment_iteration` does not preserve the
invariant `iteration ≤ max_iterations` unconditionally — from a state
with `iteration = max_iterations = 5` (which satisfies the invariant) it
produces `iteration = 6 > 5`.  The source increments the counter with no
guard; only the loop's `should_continue` check keeps the invariant. -/
theorem C8_cex_increment_breaks_bound :
    C8cexState.iteration ≤ C8cexState.max_iterations ∧
      ¬ (C8cexState.increment_iteration.iteration ≤
          C8cexState.increment_iteration.max_iterations) := by
  constructor
  · decide
  · simp [AgentState.increment_iteration, C8cexState]

/-- C8 (amended): `add_step` changes neither the counter, the bound nor
the completion flag; `increment_iteration` preserves
`iteration ≤ max_iterations` provided `should_continue()` held before
the call (which is exactly how the loop invokes it); once `is_complete`
is true, `should_continue()` is false regardless of the counter, and no
loop operation resets `is_complete` to false. -/
theorem C8_amended_state_invariants (s : AgentState) (t c : String) :
    ((s.add_step t c).iteration = s.iteration ∧
      (s.add_step t c).max_iterations = s.max_iterations ∧
      (s.add_step t c).is_complete = s.is_complete) ∧
    (s.should_continue = true →
      s.increment_iteration.iteration ≤ s.increment_iteration.max_iterations) ∧
    (s.is_complete = true → s.should_continue = false) ∧
    (s.is_complete = true →
      s.increment_iteration.is_complete = true ∧
        (s.add_step t c).is_complete = true) := by
  refine ⟨⟨rfl, rfl, rfl⟩, ?_, ?_, ?_⟩
  · intro h
    have := (AgentState.should_continue_iff s).mp h
    simp only [AgentState.increment_iteration_iteration, AgentState.increment_iteration_max]
    omega
  · intro h
    unfold AgentState.should_continue
    simp [h]
  · intro h
    refine ⟨?_, by simp [AgentState.add_step_complete, h]⟩
    simp [AgentState.increment_iteration_complete, h]

/-- C8 witness: the amended theorem applied at concrete states, with
both kinds of hypothesis discharged. -/
theorem C8_amended_state_invariants_witness :
    ((AgentState.init "q" 3).increment_iteration.iteration ≤
        (AgentState.init "q" 3).increment_iteration.max_iterations) ∧
      C8cexState.should_continue = false :=
  ⟨(C8_amended_state_invariants (AgentState.init "q" 3) "t" "c").2.1 (by decide),
   (C8_amended_state_invariants C8cexState "t" "c").2.2.1 (by decide)⟩

/-! ## Claim about should_revise (C5) -/

/-- C5: `should_revise` returns true if and only if the confidence score
is strictly below the configured minimum threshold, or the answer is not
satisfactory, or the weaknesses strictly outnumber the strengths; each
disjunct is independently sufficient. -/
theorem C5_should_revise_iff (minConfidence : ℚ) (r : ReflectionResult) :
    SelfReflectionCritic.should_revise minConfidence r = true ↔
      (r.confidence_score < minConfidence ∨ r.is_satisfactory = false ∨
        r.weaknesses.length > r.strengths.length) := by
  unfold SelfReflectionCritic.should_revise
  split_ifs with h1 h2 h3 <;> simp_all

/-! ## Claim about the planner parse (C6) -/

/-- A structured planner response with `sub_tasks` and
`required_information` absent. -/
def C6cexInput : PlannerJson := { main_goal := some "g", complexity := some "simple" }

/-- C6 counterexample: on a response missing some of the four fields,
`ReasoningPlanner.plan` raises a `KeyError` instead of substituting the
documented defaults and returning a `TaskDecomposition`. -/
theorem C6_cex_plan_raises_on_missing_field :
    ReasoningPlanner.planParse C6cexInput = .error "KeyError: sub_tasks" ∧
      ReasoningPlanner.planParse C6cexInput ≠
        .ok ⟨"g", [], [], "simple"⟩ := by
  refine ⟨rfl, ?_⟩
  intro h
  simp [ReasoningPlanner.planParse, C6cexInput] at h

/-- C6 (amended): if any of the four fields is absent the parse of the
planner response raises (`KeyError`) rather than substituting defaults;
only when all four fields are present does `plan` return the
corresponding `TaskDecomposition`. -/
theorem C6_amended_plan_parse (r : PlannerJson) (g cx : String) (st ri : List String) :
    ((r.main_goal = none ∨ r.sub_tasks = none ∨ r.required_information = none ∨
        r.complexity = none) → ∃ e, ReasoningPlanner.planParse r = .error e) ∧
      ReasoningPlanner.planParse ⟨some g, some st, some ri, some cx⟩ =
        .ok ⟨g, st, ri, cx⟩ := by
  constructor
  · obtain ⟨mg, stt, rii, cxx⟩ := r
    intro h
    rcases mg with _ | g'
    · exact ⟨_, rfl⟩
    rcases stt with _ | st'
    · exact ⟨_, rfl⟩
    rcases rii with _ | ri'
    · exact ⟨_, rfl⟩
    rcases cxx with _ | cx'
    · exact ⟨_, rfl⟩
    simp at h
  · rfl

/-- C6 witness: the amended theorem at the all-absent response. -/
theorem C6_amended_plan_parse_witness :
    ∃ e, ReasoningPlanner.planParse ⟨none, none, none, none⟩ = .error e :=
  (C6_amended_plan_parse ⟨none, none, none, none⟩ "g" "simple" [] []).1 (Or.inl rfl)

/-! ## tools/base.py and tools/registry.py -/

/-- An exact fraction with positive denominator, the number
representation of the embedded Python evaluator.  Python ints and
floats are modelled as exact rationals; fractions are kept unnormalised
so that every arithmetic step is a plain `Int` computation the kernel
can evaluate.  Every constructor and operation below keeps `d`
positive. -/
structure PyNum where
  n : Int
  d : Int
deriving Repr, DecidableEq

/-- The rational value an embedded number denotes. -/
def PyNum.toRat (a : PyNum) : ℚ := (a.n : ℚ) / (a.d : ℚ)

/-- A Python runtime value as far as the claims need it: a number, one
of the whitelisted builtin function objects, or an opaque object (for
instance a class reached through attribute access). -/
inductive PyValue where
  | num (v : PyNum)
  | fn (name : String)
  | obj (descr : String)
deriving Repr, DecidableEq

/-- The `ToolResult` dataclass.  `execution_time_ms` keeps the measured
wall-clock duration, which the embedding receives from an injected
duration oracle. -/
structure ToolResult where
  success : Bool
  result : Option PyValue
  error : Option String := none
  execution_time_ms : Option ℚ := none
deriving Repr, DecidableEq

/-- The observable behaviour of one `tool.execute(**kwargs)` call:
either it raises an exception (with a message) or returns a
`ToolResult`. -/
inductive AttemptOutcome where
  | raises (msg : String)
  | returns (r : ToolResult)
deriving Repr, DecidableEq

/-- A registered tool, as the registry sees it: the outcome of each
successive execution attempt (attempt indices 0, 1, 2, ...). -/
def ToolBehavior := Nat → AttemptOutcome

/-- `max_attempts = 3` in `ToolRegistry.execute`. -/
def maxAttempts : Nat := 3

/-- Does attempt `i` of the tool fail (raise, or return
`success=False`)? -/
def attemptFails (tool : ToolBehavior) (i : Nat) : Bool :=
  match tool i with
  | .raises _ => true
  | .returns r => !r.success

/-- The body of `for attempt in range(max_attempts)` in
`ToolRegistry.execute`, walking the remaining attempt indices.  Returns
the `ToolResult`, the list of backoff sleeps performed (`2 ** attempt`
time units each) and the number of execution attempts made.  The `[]`
case is the unreachable fall-through return after the loop. -/
def executeGo (tool : ToolBehavior) (dur : Nat → ℚ) :
    List Nat → ToolResult × List Nat × Nat
  | [] =>
    ({ success := false, result := none,
       error := some "Tool execution failed after 3 attempts" }, [], 0)
  | attempt :: rest =>
    match tool attempt with
    | .returns r =>
      if r.success then
        ({ r with execution_time_ms := some (dur attempt) }, [], 1)
      else if attempt < maxAttempts - 1 then
        let nxt := executeGo tool dur rest
        (nxt.1, 2 ^ attempt :: nxt.2.1, nxt.2.2 + 1)
      else
        (r, [], 1)
    | .raises e =>
      if attempt < maxAttempts - 1 then
        let nxt := executeGo tool dur rest
        (nxt.1, 2 ^ attempt :: nxt.2.1, nxt.2.2 + 1)
      else
        ({ success := false, result := none,
           error := some ("Tool execution failed after 3 attempts: " ++ e) }, [], 1)

/-- The retry loop of `ToolRegistry.execute` on a registered tool:
attempts `0, 1, 2` (= `range(max_attempts)`). -/
def executeAttempts (tool : ToolBehavior) (dur : Nat → ℚ) :
    ToolResult × List Nat × Nat :=
  executeGo tool dur (List.range maxAttempts)

/-- `ToolRegistry.execute`: the registry dictionary is an association
list (`register` inserts by name); an unregistered name returns a
failure immediately, otherwise the retry loop runs. -/
def ToolRegistry.execute (tools : List (String × ToolBehavior)) (dur : Nat → ℚ)
    (tool_name : String) : ToolResult × List Nat × Nat :=
  match tools.lookup tool_name with
  | none =>
    ({ success := false, result := none,
       error := some ("Tool not found: " ++ tool_name) }, [], 0)
  | some tool => executeAttempts tool dur

/-! ## Claims about the registry retry loop (C3, C9) -/

theorem rangeMaxAttempts : List.range maxAttempts = [0, 1, 2] := rfl

theorem attemptFails_false (tool : ToolBehavior) (i : Nat)
    (h : attemptFails tool i = false) :
    ∃ r, tool i = .returns r ∧ r.success = true := by
  unfold attemptFails at h
  rcases hi : tool i with e | r <;> rw [hi] at h
  · cases h
  · exact ⟨r, rfl, by simpa using h⟩

theorem attemptFails_returns (tool : ToolBehavior) (i : Nat) (r : ToolResult)
    (h : attemptFails tool i = true) (hr : tool i = .returns r) :
    r.success = false := by
  unfold attemptFails at h
  rw [hr] at h
  simpa using h

theorem executeAttempts_succ0 (tool : ToolBehavior) (dur : Nat → ℚ) (r : ToolResult)
    (h : tool 0 = .returns r) (hs : r.success = true) :
    executeAttempts tool dur = ({ r with execution_time_ms := some (dur 0) }, [], 1) := by
  simp [executeAttempts, rangeMaxAttempts, executeGo, h, hs]

theorem executeAttempts_succ1 (tool : ToolBehavior) (dur : Nat → ℚ) (r : ToolResult)
    (hf0 : attemptFails tool 0 = true)
    (h : tool 1 = .returns r) (hs : r.success = true) :
    executeAttempts tool dur = ({ r with execution_time_ms := some (dur 1) }, [1], 2) := by
  rcases h0 : tool 0 with e0 | r0
  · simp [executeAttempts, rangeMaxAttempts, executeGo, maxAttempts, h0, h, hs]
  · have := attemptFails_returns tool 0 r0 hf0 h0
    simp [executeAttempts, rangeMaxAttempts, executeGo, maxAttempts, h0, h, hs, this]

theorem executeAttempts_attempt2 (tool : ToolBehavior) (dur : Nat → ℚ)
    (hf0 : attemptFails tool 0 = true) (hf1 : attemptFails tool 1 = true) :
    executeAttempts tool dur =
      ((executeGo tool dur [2]).1, [1, 2], 3) := by
  rcases h0 : tool 0 with e0 | r0 <;> rcases h1 : tool 1 with e1 | r1
  · rcases h2 : tool 2 with e2 | r2
    · simp [executeAttempts, rangeMaxAttempts, executeGo, maxAttempts, h0, h1, h2]
    · by_cases hs2 : r2.success = true <;>
        simp [executeAttempts, rangeMaxAttempts, executeGo, maxAttempts, h0, h1, h2, hs2]
  · have hb := attemptFails_returns tool 1 r1 hf1 h1
    rcases h2 : tool 2 with e2 | r2
    · simp [executeAttempts, rangeMaxAttempts, executeGo, maxAttempts, h0, h1, h2, hb]
    · by_cases hs2 : r2.success = true <;>
        simp [executeAttempts, rangeMaxAttempts, executeGo, maxAttempts, h0, h1, h2, hb, hs2]
  · have ha := attemptFails_returns tool 0 r0 hf0 h0
    rcases h2 : tool 2 with e2 | r2
    · simp [executeAttempts, rangeMaxAttempts, executeGo, maxAttempts, h0, h1, h2, ha]
    · by_cases hs2 : r2.success = true <;>
        simp [executeAttempts, rangeMaxAttempts, executeGo, maxAttempts, h0, h1, h2, ha, hs2]
  · have ha := attemptFails_returns tool 0 r0 hf0 h0
    have hb := attemptFails_returns tool 1 r1 hf1 h1
    rcases h2 : tool 2 with e2 | r2
    · simp [executeAttempts, rangeMaxAttempts, executeGo, maxAttempts, h0, h1, h2, ha, hb]
    · by_cases hs2 : r2.success = true <;>
        simp [executeAttempts, rangeMaxAttempts, executeGo, maxAttempts, h0, h1, h2, ha, hb, hs2]

/-- C3: on a registered tool the retry loop makes at most 3 attempts,
sleeping `2^attempt` time units (1, then 2) after each failed attempt
that is not the last; the first success is returned immediately with the
measured execution time attached; a tool that fails twice and then
succeeds returns the success result after backoff waits of exactly
`[1, 2]`; exhausting all attempts yields the last failure or a
synthesized exhaustion failure. -/
theorem C3_execute_retry_contract (tool : ToolBehavior) (dur : Nat → ℚ) :
    (((executeAttempts tool dur).2.1 = [] ∨ (executeAttempts tool dur).2.1 = [1] ∨
        (executeAttempts tool dur).2.1 = [1, 2]) ∧
      (executeAttempts tool dur).2.2 = (executeAttempts tool dur).2.1.length + 1 ∧
      (executeAttempts tool dur).2.2 ≤ 3) ∧
    (∀ r : ToolResult, tool 0 = .returns r → r.success = true →
      executeAttempts tool dur = ({ r with execution_time_ms := some (dur 0) }, [], 1)) ∧
    (∀ r : ToolResult, attemptFails tool 0 = true → attemptFails tool 1 = true →
      tool 2 = .returns r → r.success = true →
      executeAttempts tool dur = ({ r with execution_time_ms := some (dur 2) }, [1, 2], 3)) ∧
    (attemptFails tool 0 = true → attemptFails tool 1 = true → attemptFails tool 2 = true →
      (executeAttempts tool dur).1.success = false ∧
        (executeAttempts tool dur).2.1 = [1, 2]) := by
  have hsucc0 := executeAttempts_succ0 tool dur
  have hsucc1 := executeAttempts_succ1 tool dur
  have hat2 := executeAttempts_attempt2 tool dur
  refine ⟨?_, fun r h hs => hsucc0 r h hs, ?_, ?_⟩
  · cases hf0 : attemptFails tool 0
    · obtain ⟨r, hr, hs⟩ := attemptFails_false tool 0 hf0
      rw [hsucc0 r hr hs]
      simp
    · cases hf1 : attemptFails tool 1
      · obtain ⟨r, hr, hs⟩ := attemptFails_false tool 1 hf1
        rw [hsucc1 r hf0 hr hs]
        simp
      · rw [hat2 hf0 hf1]
        simp
  · intro r hf0 hf1 h2 hs
    rw [hat2 hf0 hf1]
    simp [executeGo, maxAttempts, h2, hs]
  · intro hf0 hf1 hf2
    rw [hat2 hf0 hf1]
    rcases h2 : tool 2 with e2 | r2
    · simp [executeGo, maxAttempts, h2]
    · have := attemptFails_returns tool 2 r2 hf2 h2
      simp [executeGo, maxAttempts, h2, this]

/-- A tool behaviour that raises twice and then succeeds. -/
def retryTool : ToolBehavior := fun i =>
  if i < 2 then .raises "boom" else .returns ⟨true, some (.num ⟨7, 1⟩), none, none⟩

/-- C3 witness: the fails-twice-then-succeeds conjunct at `retryTool`:
the success result is returned with the measured time attached and the
backoff waits are exactly `[1, 2]` (total 3 time units). -/
theorem C3_execute_retry_contract_witness :
    executeAttempts retryTool (fun _ => 5) =
      ({ success := true, result := some (.num ⟨7, 1⟩), error := none,
         execution_time_ms := some 5 }, [1, 2], 3) :=
  (C3_execute_retry_contract retryTool (fun _ => 5)).2.2.1
    ⟨true, some (.num ⟨7, 1⟩), none, none⟩ (by decide) (by decide) (by decide) rfl

/-- C9: executing an unregistered tool name returns a failure result
with an error message immediately: zero execution attempts and zero
backoff sleeps. -/
theorem C9_execute_unregistered (tools : List (String × ToolBehavior))
    (dur : Nat → ℚ) (tool_name : String)
    (h : tools.lookup tool_name = none) :
    ToolRegistry.execute tools dur tool_name =
      ({ success := false, result := none,
         error := some ("Tool not found: " ++ tool_name) }, [], 0) := by
  unfold ToolRegistry.execute
  rw [h]

/-- C9 witness: the empty registry at a concrete name. -/
theorem C9_execute_unregistered_witness :
    ToolRegistry.execute [] (fun _ => 0) "CalculatorTool" =
      ({ success := false, result := none,
         error := some ("Tool not found: " ++ "CalculatorTool") }, [], 0) :=
  C9_execute_unregistered [] (fun _ => 0) "CalculatorTool" rfl

/-! ## agent/orchestrator.py -/

/-- Defaults of `TOP_K` and `MAX_REASONING_STEPS` in rag/config.py. -/
def TOP_K : Nat := 5

def MAX_REASONING_STEPS : Nat := 5

/-- The aggregation loop of `AgentOrchestrator._retrieve`: for each
collection, call the retrieval collaborator; on success extend
`all_docs`, on a raised error skip the collection and continue.  The
collaborator is injected as a function returning `Except` (it may raise
per collection). -/
def retrieveAgg (retrieve : String → Except String (List String))
    (collections : List String) : List String :=
  collections.foldl (fun all_docs collection =>
    match retrieve collection with
    | .ok results => all_docs ++ results
    | .error _ => all_docs) []

/-- `AgentOrchestrator._retrieve`, documents part: aggregate over the
collections, then truncate to the global bound (`all_docs[:TOP_K]`).
Total by construction: no exception escapes the phase. -/
def orchestratorRetrieve (retrieve : String → Except String (List String))
    (collections : List String) (topK : Nat) : List String :=
  (retrieveAgg retrieve collections).take topK

/-- Specification-side description of the aggregated context, following
the spec's words: exactly the results of the healthy collections,
concatenated in collection-iteration order (to be compared with the
foldl in the source). -/
def specHealthyConcat (retrieve : String → Except String (List String)) :
    List String → List String
  | [] => []
  | c :: cs =>
    match retrieve c with
    | .ok results => results ++ specHealthyConcat retrieve cs
    | .error _ => specHealthyConcat retrieve cs

theorem retrieveAgg_eq_healthy (retrieve : String → Except String (List String))
    (collections : List String) :
    retrieveAgg retrieve collections = specHealthyConcat retrieve collections := by
  have key : ∀ (cs : List String) (acc : List String),
      cs.foldl (fun all_docs collection =>
        match retrieve collection with
        | .ok results => all_docs ++ results
        | .error _ => all_docs) acc = acc ++ specHealthyConcat retrieve cs := by
    intro cs
    induction cs with
    | nil => intro acc; simp [specHealthyConcat]
    | cons c cs ih =>
      intro acc
      simp only [List.foldl_cons, specHealthyConcat]
      rcases h : retrieve c with e | results <;> simp [ih]
  simpa using key collections []

/-- C7: the retrieval phase never lets a per-collection error escape
(it is a total function of the injected collaborator); the aggregated
context is exactly the concatenation, in collection-iteration order, of
the results of the collections that did not raise, truncated to the
single global top-K bound. -/
theorem C7_retrieve_partial_failure (retrieve : String → Except String (List String))
    (collections : List String) (topK : Nat) :
    orchestratorRetrieve retrieve collections topK =
      (specHealthyConcat retrieve collections).take topK := by
  unfold orchestratorRetrieve
  rw [retrieveAgg_eq_healthy]

/-- `AgentOrchestrator._format_reflection_feedback`. -/
def formatReflectionFeedback (r : ReflectionResult) : String :=
  String.intercalate "\n"
    ((if r.weaknesses ≠ [] then
        "Weaknesses:" :: r.weaknesses.map (fun w => "  - " ++ w) else []) ++
     (if r.suggestions ≠ [] then
        "\nSuggestions:" :: r.suggestions.map (fun s => "  - " ++ s) else []) ++
     (if r.missing_information ≠ [] then
        "\nMissing Information:" :: r.missing_information.map (fun m => "  - " ++ m)
      else []))

/-- The external collaborators consumed by `AgentOrchestrator.run`, made
explicit and indexed by the iteration counter where the code calls them
once per loop pass: the planner summary and its two heuristics' results
(computed once before the loop), the retrieval service, the tool-calling
summary, the generation model and the critic.  `reflectionEnabled`
mirrors the `REFLECTION_ENABLED` configuration flag. -/
structure RunOracles where
  planGoal : String
  collections : List String
  needsTools : Bool
  toolsSummary : Nat → String
  retrieve : Nat → String → Except String (List String)
  gen : Nat → String
  critic : Nat → ReflectionResult
  reflectionEnabled : Bool

/-- Phases 2-4 of one loop pass of `run`: `_retrieve` (which appends one
"retrieve" step), `_call_tools` when tools are needed (appends one
"tool_call" step), and `_generate` (appends one "generate" step with the
answer truncated to 200 characters), after which the loop stores the
answer in `current_answer`. -/
def iterationPhases (O : RunOracles) (s : AgentState) : AgentState :=
  let docs := orchestratorRetrieve (O.retrieve s.iteration) O.collections TOP_K
  let s1 := s.add_step "retrieve" ("Retrieved " ++ toString docs.length ++ " documents")
  let s2 := if O.needsTools then s1.add_step "tool_call" (O.toolsSummary s.iteration) else s1
  let answer := O.gen s.iteration
  let s3 := s2.add_step "generate" (answer.take 200 ++ "...")
  { s3 with current_answer := some answer }

/-- Phase 5 of one loop pass: `_reflect` stores the confidence score and
appends one "reflect" step. -/
def reflectPhase (s : AgentState) (r : ReflectionResult) : AgentState :=
  ({ s with confidence_score := r.confidence_score }).add_step "reflect"
    ("Confidence: " ++ toString r.confidence_score)

@[simp] theorem iterationPhases_iteration (O : RunOracles) (s : AgentState) :
    (iterationPhases O s).iteration = s.iteration := by
  simp only [iterationPhases]
  split <;> rfl

@[simp] theorem iterationPhases_max (O : RunOracles) (s : AgentState) :
    (iterationPhases O s).max_iterations = s.max_iterations := by
  simp only [iterationPhases]
  split <;> rfl

@[simp] theorem iterationPhases_complete (O : RunOracles) (s : AgentState) :
    (iterationPhases O s).is_complete = s.is_complete := by
  simp only [iterationPhases]
  split <;> rfl

@[simp] theorem iterationPhases_answer (O : RunOracles) (s : AgentState) :
    (iterationPhases O s).current_answer = some (O.gen s.iteration) := by
  simp only [iterationPhases]


@[simp] theorem reflectPhase_iteration (s : AgentState) (r : ReflectionResult) :
    (reflectPhase s r).iteration = s.iteration := rfl

@[simp] theorem reflectPhase_max (s : AgentState) (r : ReflectionResult) :
    (reflectPhase s r).max_iterations = s.max_iterations := rfl

@[simp] theorem reflectPhase_complete (s : AgentState) (r : ReflectionResult) :
    (reflectPhase s r).is_complete = s.is_complete := rfl

@[simp] theorem reflectPhase_answer (s : AgentState) (r : ReflectionResult) :
    (reflectPhase s r).current_answer = s.current_answer := rfl


/-- `state.reflection_feedback.append(feedback)` in the revision branch. -/
def AgentState.appendFeedback (s : AgentState) (f : String) : AgentState :=
  { s with reflection_feedback := s.reflection_feedback ++ [f] }

/-- `state.is_complete = True` in the accept branch. -/
def AgentState.acceptComplete (s : AgentState) : AgentState :=
  { s with is_complete := true }

@[simp] theorem AgentState.appendFeedback_iteration (s : AgentState) (f : String) :
    (s.appendFeedback f).iteration = s.iteration := rfl

@[simp] theorem AgentState.appendFeedback_max (s : AgentState) (f : String) :
    (s.appendFeedback f).max_iterations = s.max_iterations := rfl

@[simp] theorem AgentState.appendFeedback_complete (s : AgentState) (f : String) :
    (s.appendFeedback f).is_complete = s.is_complete := rfl

@[simp] theorem AgentState.appendFeedback_answer (s : AgentState) (f : String) :
    (s.appendFeedback f).current_answer = s.current_answer := rfl

@[simp] theorem AgentState.appendFeedback_steps (s : AgentState) (f : String) :
    (s.appendFeedback f).reasoning_steps = s.reasoning_steps := rfl

@[simp] theorem AgentState.acceptComplete_complete (s : AgentState) :
    s.acceptComplete.is_complete = true := rfl

@[simp] theorem AgentState.acceptComplete_answer (s : AgentState) :
    s.acceptComplete.current_answer = s.current_answer := rfl

@[simp] theorem AgentState.acceptComplete_steps (s : AgentState) :
    s.acceptComplete.reasoning_steps = s.reasoning_steps := rfl

/-- The `while state.should_continue()` loop of `AgentOrchestrator.run`:
phases 2-4, then (when reflection is enabled) reflection and the
revision decision — revising requires both the critic's recommendation
and `should_continue()`, in which case the feedback is appended, the
iteration incremented and the loop re-entered; otherwise the answer is
accepted and the state marked complete.  With reflection disabled the
first answer is accepted immediately. -/
def runLoop (O : RunOracles) (minConfidence : ℚ) (s : AgentState) : AgentState :=
  if hc : s.should_continue = true then
    if O.reflectionEnabled = true then
      if hrev : (SelfReflectionCritic.should_revise minConfidence (O.critic s.iteration) &&
          (reflectPhase (iterationPhases O s) (O.critic s.iteration)).should_continue) = true then
        runLoop O minConfidence
          (((reflectPhase (iterationPhases O s) (O.critic s.iteration)).appendFeedback
              (formatReflectionFeedback (O.critic s.iteration))).increment_iteration)
      else (reflectPhase (iterationPhases O s) (O.critic s.iteration)).acceptComplete
    else (iterationPhases O s).acceptComplete
  else s
termination_by s.max_iterations - s.iteration
decreasing_by
  rw [Bool.and_eq_true] at hrev
  have h2 := hrev.2
  rw [AgentState.should_continue_iff] at h2
  simp only [reflectPhase_iteration, reflectPhase_max, iterationPhases_iteration,
    iterationPhases_max] at h2
  simp only [AgentState.increment_iteration_iteration, AgentState.increment_iteration_max,
    AgentState.appendFeedback_iteration, AgentState.appendFeedback_max,
    reflectPhase_iteration, reflectPhase_max, iterationPhases_iteration, iterationPhases_max]
  omega

/-- `AgentOrchestrator.run`: build the initial state (note the Python
`max_iterations or MAX_REASONING_STEPS` default, whose truthiness also
replaces an explicit 0), append the planning step, then run the loop. -/
def AgentOrchestrator.run (query : String) (max_iterations : Option Nat)
    (O : RunOracles) (minConfidence : ℚ) : AgentState :=
  let max_iter := match max_iterations with
    | some n => if n = 0 then MAX_REASONING_STEPS else n
    | none => MAX_REASONING_STEPS
  runLoop O minConfidence
    ((AgentState.init query max_iter).add_step "plan" ("Main goal: " ++ O.planGoal))

@[simp] theorem AgentState.increment_iteration_steps (s : AgentState) :
    s.increment_iteration.reasoning_steps = s.reasoning_steps := by
  simp only [AgentState.increment_iteration]
  split <;> rfl

@[simp] theorem AgentState.increment_iteration_answer (s : AgentState) :
    s.increment_iteration.current_answer = s.current_answer := by
  simp only [AgentState.increment_iteration]
  split <;> rfl

theorem iterationPhases_genCount (O : RunOracles) (s : AgentState) :
    ((iterationPhases O s).get_steps_by_type "generate").length =
      (s.get_steps_by_type "generate").length + 1 := by
  unfold iterationPhases AgentState.get_steps_by_type AgentState.add_step
  split <;> simp [List.filter_append]

theorem reflectPhase_genCount (s : AgentState) (r : ReflectionResult) :
    ((reflectPhase s r).get_steps_by_type "generate").length =
      (s.get_steps_by_type "generate").length := by
  unfold reflectPhase AgentState.get_steps_by_type AgentState.add_step
  simp [List.filter_append]

theorem runLoop_always_revise (O : RunOracles) (minConfidence : ℚ)
    (hre : O.reflectionEnabled = true)
    (hrev : ∀ i, SelfReflectionCritic.should_revise minConfidence (O.critic i) = true) :
    ∀ (k : Nat) (s : AgentState), s.max_iterations - s.iteration = k →
      s.is_complete = false → s.iteration < s.max_iterations →
      (runLoop O minConfidence s).is_complete = true ∧
        (runLoop O minConfidence s).current_answer =
          some (O.gen (s.max_iterations - 1)) ∧
        ((runLoop O minConfidence s).get_steps_by_type "generate").length =
          (s.get_steps_by_type "generate").length + (s.max_iterations - s.iteration) := by
  intro k
  induction k with
  | zero => intro s hk hcomp hlt; omega
  | succ k ih =>
    intro s hk hcomp hlt
    have hc : s.should_continue = true :=
      (AgentState.should_continue_iff s).mpr ⟨hcomp, hlt⟩
    have hguard : (SelfReflectionCritic.should_revise minConfidence (O.critic s.iteration) &&
        (reflectPhase (iterationPhases O s) (O.critic s.iteration)).should_continue) = true := by
      rw [Bool.and_eq_true]
      refine ⟨hrev s.iteration, ?_⟩
      rw [AgentState.should_continue_iff]
      simp [hcomp, hlt]
    rw [runLoop, dif_pos hc]
    simp only [hre, if_true]
    rw [dif_pos hguard]
    set s' := ((reflectPhase (iterationPhases O s) (O.critic s.iteration)).appendFeedback
        (formatReflectionFeedback (O.critic s.iteration))).increment_iteration with hs'
    have hiter : s'.iteration = s.iteration + 1 := by rw [hs']; simp
    have hmax : s'.max_iterations = s.max_iterations := by rw [hs']; simp
    have hans : s'.current_answer = some (O.gen s.iteration) := by rw [hs']; simp
    have hcompl : s'.is_complete = decide (s.max_iterations ≤ s.iteration + 1) := by
      rw [hs', AgentState.increment_iteration_complete]
      simp [hcomp]
    have hcount : ((s'.get_steps_by_type "generate")).length =
        (s.get_steps_by_type "generate").length + 1 := by
      rw [hs']
      unfold AgentState.get_steps_by_type
      rw [AgentState.increment_iteration_steps, AgentState.appendFeedback_steps]
      have h1 := reflectPhase_genCount (iterationPhases O s) (O.critic s.iteration)
      have h2 := iterationPhases_genCount O s
      unfold AgentState.get_steps_by_type at h1 h2
      simpa using h1.trans h2
    rcases Nat.lt_or_ge (s.iteration + 1) s.max_iterations with hlt2 | hge2
    · -- budget not yet exhausted: apply the induction hypothesis
      have hcompl' : s'.is_complete = false := by
        rw [hcompl]
        simpa using Nat.not_le.mpr hlt2
      have hk' : s'.max_iterations - s'.iteration = k := by
        rw [hiter, hmax]
        omega
      obtain ⟨ha, hb, hcnt⟩ := ih s' hk' hcompl' (by rw [hiter, hmax]; omega)
      refine ⟨ha, ?_, ?_⟩
      · rw [hb, hmax]
      · rw [hcnt, hcount, hmax, hiter]
        omega
    · -- the increment just hit the bound: the next loop test stops
      have hcompl' : s'.is_complete = true := by
        rw [hcompl]
        simpa using hge2
      have hstop : ¬ (s'.should_continue = true) := by
        rw [AgentState.should_continue_iff, hcompl']
        simp
      rw [runLoop, dif_neg hstop]
      refine ⟨hcompl', ?_, ?_⟩
      · rw [hans]
        have hm1 : s.max_iterations - 1 = s.iteration := by omega
        rw [hm1]
      · rw [hcount]
        omega

/-- C2: if the critic recommends revision on every iteration, `run`
still terminates with `is_complete = true` and a non-null
`current_answer`, after at most `N` generation passes (counted as
"generate" steps in the trace): the final answer is accepted rather than
the run looping forever.  Termination itself is witnessed by `runLoop`
being a total function. -/
theorem C2_run_terminates_always_revise (q : String) (N : Nat) (O : RunOracles)
    (minConfidence : ℚ) (hN : 1 ≤ N) (hre : O.reflectionEnabled = true)
    (hrev : ∀ i, SelfReflectionCritic.should_revise minConfidence (O.critic i) = true) :
    (AgentOrchestrator.run q (some N) O minConfidence).is_complete = true ∧
      (AgentOrchestrator.run q (some N) O minConfidence).current_answer.isSome = true ∧
      ((AgentOrchestrator.run q (some N) O
          minConfidence).get_steps_by_type "generate").length ≤ N := by
  have hrun : AgentOrchestrator.run q (some N) O minConfidence =
      runLoop O minConfidence
        ((AgentState.init q N).add_step "plan" ("Main goal: " ++ O.planGoal)) := by
    unfold AgentOrchestrator.run
    dsimp only
    rw [if_neg (show ¬ N = 0 by omega)]
  have hcnt0 : (((AgentState.init q N).add_step "plan"
      ("Main goal: " ++ O.planGoal)).get_steps_by_type "generate").length = 0 := by
    simp [AgentState.get_steps_by_type, AgentState.add_step, AgentState.init]
  obtain ⟨ha, hb, hcnt⟩ := runLoop_always_revise O minConfidence hre hrev N
    ((AgentState.init q N).add_step "plan" ("Main goal: " ++ O.planGoal))
    (by simp [AgentState.init]) rfl (by simpa [AgentState.init] using hN)
  rw [hrun]
  refine ⟨ha, ?_, ?_⟩
  · rw [hb]; rfl
  · rw [hcnt, hcnt0]
    simp [AgentState.init]

/-- A concrete oracle bundle whose critic always recommends revision
(zero confidence, not satisfactory). -/
def C2oracles : RunOracles :=
  { planGoal := "goal"
    collections := ["ai_academy_course"]
    needsTools := false
    toolsSummary := fun _ => ""
    retrieve := fun _ _ => .ok []
    gen := fun _ => "answer"
    critic := fun _ => ⟨0, false, [], [], [], []⟩
    reflectionEnabled := true }

/-- C2 witness: the revision-loop theorem at `N = 2` with the
always-revise critic and the default confidence threshold. -/
theorem C2_run_terminates_always_revise_witness :
    (AgentOrchestrator.run "q" (some 2) C2oracles MIN_CONFIDENCE_SCORE).is_complete = true ∧
      (AgentOrchestrator.run "q" (some 2) C2oracles
          MIN_CONFIDENCE_SCORE).current_answer.isSome = true ∧
      ((AgentOrchestrator.run "q" (some 2) C2oracles
          MIN_CONFIDENCE_SCORE).get_steps_by_type "generate").length ≤ 2 :=
  C2_run_terminates_always_revise "q" 2 C2oracles MIN_CONFIDENCE_SCORE
    (by norm_num) rfl (fun i => by
      have hcrit : C2oracles.critic i = ⟨0, false, [], [], [], []⟩ := rfl
      rw [hcrit]
      norm_num [SelfReflectionCritic.should_revise, MIN_CONFIDENCE_SCORE])

/-! ## tools/utility_tools.py — the calculator tool

`CalculatorTool.execute` rewrites the expression string (`%` →
`/100`, `"A of B"` → `"(A) * (B)"`) and hands it to Python `eval` with
empty builtins and a whitelist of names.  The evaluator below is a
shallow embedding of Python `eval` on the arithmetic expression
fragment: literals, names, `+ - * / // % **`, unary signs, calls,
attribute access and parentheses.  Numbers are exact fractions
(`PyNum`); Python's float rounding is not modelled — every value
appearing in a claim is exactly representable.  Expression strings are
`List Char`. -/

def PyNum.add (a b : PyNum) : PyNum := ⟨a.n * b.d + b.n * a.d, a.d * b.d⟩

def PyNum.sub (a b : PyNum) : PyNum := ⟨a.n * b.d - b.n * a.d, a.d * b.d⟩

def PyNum.mul (a b : PyNum) : PyNum := ⟨a.n * b.n, a.d * b.d⟩

def PyNum.neg (a : PyNum) : PyNum := ⟨-a.n, a.d⟩

def PyNum.abs (a : PyNum) : PyNum := ⟨(a.n.natAbs : Int), a.d⟩

/-- True division; `ZeroDivisionError` when the divisor is zero.  The
sign is moved to the numerator to keep the denominator positive. -/
def PyNum.div (a b : PyNum) : Except String PyNum :=
  if b.n = 0 then .error "division by zero"
  else if b.n < 0 then .ok ⟨-(a.n * b.d), a.d * (-b.n)⟩
  else .ok ⟨a.n * b.d, a.d * b.n⟩

/-- `math.floor` of the fraction (the denominator is positive). -/
def PyNum.floor (a : PyNum) : Int := Int.fdiv a.n a.d

/-- Python `//` (floor division). -/
def PyNum.floordiv (a b : PyNum) : Except String PyNum :=
  if b.n = 0 then .error "division by zero"
  else .ok ⟨Int.fdiv (a.n * b.d) (a.d * b.n), 1⟩

/-- Python `%` on numbers: `a - b * (a // b)`. -/
def PyNum.pymod (a b : PyNum) : Except String PyNum :=
  match PyNum.floordiv a b with
  | .error e => .error e
  | .ok q => .ok (a.sub (b.mul q))

/-- Reciprocal of a nonzero fraction, keeping the denominator positive. -/
def PyNum.recip (a : PyNum) : PyNum :=
  if a.n < 0 then ⟨-a.d, -a.n⟩ else ⟨a.d, a.n⟩

/-- Python `pow`/`**`.  Integer exponents are computed exactly;
a fractional exponent produces a float power, which the model does not
evaluate (no claim exercises it). -/
def PyNum.pypow (a b : PyNum) : Except String PyNum :=
  if b.n % b.d = 0 then
    let e := b.n / b.d
    if 0 ≤ e then .ok ⟨a.n ^ e.toNat, a.d ^ e.toNat⟩
    else if a.n = 0 then .error "zero to a negative power"
    else .ok ⟨a.recip.n ^ (-e).toNat, a.recip.d ^ (-e).toNat⟩
  else .error "fractional exponent not modelled"

/-- Python `round` with one argument: round half to even. -/
def PyNum.pyround (a : PyNum) : Int :=
  let f := a.floor
  let twice := 2 * (a.n - f * a.d)
  if twice < a.d then f
  else if twice > a.d then f + 1
  else if f % 2 = 0 then f else f + 1

/-- Comparison (the denominators are positive). -/
def PyNum.ble (a b : PyNum) : Bool := decide (a.n * b.d ≤ b.n * a.d)

/-- Exact square root when one exists; any other case is a float
square root the model does not evaluate (no claim exercises it). -/
def PyNum.pysqrt (a : PyNum) : Except String PyNum :=
  if a.n < 0 then .error "math domain error"
  else
    let nn := a.n.toNat
    let dn := a.d.toNat
    if Nat.sqrt nn * Nat.sqrt nn = nn ∧ Nat.sqrt dn * Nat.sqrt dn = dn then
      .ok ⟨(Nat.sqrt nn : Int), (Nat.sqrt dn : Int)⟩
    else .error "irrational square root not modelled"

/-- `expression.replace("%", "/100")` (single-character pattern). -/
def replacePercent : List Char → List Char
  | [] => []
  | c :: cs =>
    if c = '%' then '/' :: '1' :: '0' :: '0' :: replacePercent cs
    else c :: replacePercent cs

/-- `" of " in expression`. -/
def containsOf : List Char → Bool
  | ' ' :: 'o' :: 'f' :: ' ' :: _ => true
  | _ :: cs => containsOf cs
  | [] => false

/-- `expression.split(" of ")`: split on each leftmost non-overlapping
occurrence of the separator. -/
def splitOnOf : List Char → List (List Char)
  | ' ' :: 'o' :: 'f' :: ' ' :: rest => [] :: splitOnOf rest
  | c :: cs =>
    match splitOnOf cs with
    | [] => [[c]]
    | p :: ps => (c :: p) :: ps
  | [] => [[]]

/-- The string-rewriting part of `CalculatorTool.execute`: the text that
is handed to `eval`.  `%` is replaced by `/100` whenever present, and an
expression containing `" of "` that splits into exactly two parts `A`,
`B` becomes `(A) * (B)`. -/
def calcEvalInput (expression : List Char) : List Char :=
  let e1 := if expression.contains '%' then replacePercent expression else expression
  if containsOf e1 then
    match splitOnOf e1 with
    | [a, b] => ('(' :: a) ++ (')' :: ' ' :: '*' :: ' ' :: '(' :: b) ++ [')']
    | _ => e1
  else e1

/-- Tokens of the Python expression fragment. -/
inductive Tok where
  | num (v : PyNum)
  | ident (name : String)
  | plus | minus | star | slash | starstar | slashslash | percent
  | lparen | rparen | comma | dot
deriving Repr, DecidableEq

def digitsToNat (acc : Nat) : List Char → Nat
  | [] => acc
  | c :: cs => digitsToNat (acc * 10 + (c.toNat - 48)) cs

def isIdentStart (c : Char) : Bool := c.isAlpha || c = '_'

def isIdentChar (c : Char) : Bool := c.isAlphanum || c = '_'

/-- Tokenizer of the expression fragment, fuelled (each call consumes at
least one character, so `length + 1` fuel always suffices; the fuel
branch is unreachable).  Integer and float literals both become exact
fractions; any character outside the fragment is a syntax error. -/
def tokenizeGo : Nat → List Char → Except String (List Tok)
  | 0, _ => .error "internal: tokenizer fuel exhausted"
  | _ + 1, [] => .ok []
  | fuel + 1, c :: cs =>
    if c = ' ' then tokenizeGo fuel cs
    else if c.isDigit then
      let ds := (c :: cs).takeWhile Char.isDigit
      let rest := (c :: cs).dropWhile Char.isDigit
      match rest with
      | '.' :: rest2 =>
        let fs := rest2.takeWhile Char.isDigit
        let rest3 := rest2.dropWhile Char.isDigit
        (tokenizeGo fuel rest3).map
          (Tok.num ⟨(digitsToNat 0 ds * 10 ^ fs.length + digitsToNat 0 fs : Nat),
            (10 ^ fs.length : Nat)⟩ :: ·)
      | _ =>
        (tokenizeGo fuel rest).map (Tok.num ⟨(digitsToNat 0 ds : Nat), 1⟩ :: ·)
    else if isIdentStart c then
      let nm := (c :: cs).takeWhile isIdentChar
      let rest := (c :: cs).dropWhile isIdentChar
      (tokenizeGo fuel rest).map (Tok.ident (String.mk nm) :: ·)
    else if c = '*' then
      match cs with
      | '*' :: cs2 => (tokenizeGo fuel cs2).map (Tok.starstar :: ·)
      | _ => (tokenizeGo fuel cs).map (Tok.star :: ·)
    else if c = '/' then
      match cs with
      | '/' :: cs2 => (tokenizeGo fuel cs2).map (Tok.slashslash :: ·)
      | _ => (tokenizeGo fuel cs).map (Tok.slash :: ·)
    else if c = '+' then (tokenizeGo fuel cs).map (Tok.plus :: ·)
    else if c = '-' then (tokenizeGo fuel cs).map (Tok.minus :: ·)
    else if c = '%' then (tokenizeGo fuel cs).map (Tok.percent :: ·)
    else if c = '(' then (tokenizeGo fuel cs).map (Tok.lparen :: ·)
    else if c = ')' then (tokenizeGo fuel cs).map (Tok.rparen :: ·)
    else if c = ',' then (tokenizeGo fuel cs).map (Tok.comma :: ·)
    else if c = '.' then (tokenizeGo fuel cs).map (Tok.dot :: ·)
    else .error "invalid character"

def tokenize (cs : List Char) : Except String (List Tok) :=
  tokenizeGo (cs.length + 1) cs

/-- Abstract syntax of the Python expression fragment. -/
inductive PExpr where
  | num (v : PyNum)
  | ident (name : String)
  | pos (e : PExpr)
  | neg (e : PExpr)
  | add (a b : PExpr)
  | sub (a b : PExpr)
  | mul (a b : PExpr)
  | div (a b : PExpr)
  | floordiv (a b : PExpr)
  | mod (a b : PExpr)
  | pow (a b : PExpr)
  | call (f : PExpr) (args : List PExpr)
  | attr (e : PExpr) (name : String)
deriving Repr

/-- Parsing levels of the recursive-descent parser (Python precedence:
`+ -`, then `* / // %`, then unary signs, then `**`, then call and
attribute trailers, then atoms).  The loop levels carry the expression
parsed so far through the `acc`/`args` parameters of `parseL`. -/
inductive PLvl where
  | sum | sumLoop | term | termLoop | factor | power | trailers
  | trailersLoop | argsLoop | atom
deriving Repr, DecidableEq

/-- One recursive-descent parser for all levels, fuelled (between two
token consumptions the level chain strictly descends, so linear fuel in
the token count always suffices; the fuel branch is unreachable).
Returns the parsed expression and the remaining tokens. -/
def parseL : Nat → PLvl → PExpr → List PExpr → List Tok →
    Except String (PExpr × List Tok)
  | 0, _, _, _, _ => .error "internal: parser fuel exhausted"
  | fuel + 1, lvl, acc, args, ts =>
    match lvl with
    | .sum =>
      match parseL fuel .term acc args ts with
      | .error e => .error e
      | .ok (l, ts1) => parseL fuel .sumLoop l args ts1
    | .sumLoop =>
      match ts with
      | .plus :: rest =>
        match parseL fuel .term acc args rest with
        | .error e => .error e
        | .ok (r, ts1) => parseL fuel .sumLoop (.add acc r) args ts1
      | .minus :: rest =>
        match parseL fuel .term acc args rest with
        | .error e => .error e
        | .ok (r, ts1) => parseL fuel .sumLoop (.sub acc r) args ts1
      | _ => .ok (acc, ts)
    | .term =>
      match parseL fuel .factor acc args ts with
      | .error e => .error e
      | .ok (l, ts1) => parseL fuel .termLoop l args ts1
    | .termLoop =>
      match ts with
      | .star :: rest =>
        match parseL fuel .factor acc args rest with
        | .error e => .error e
        | .ok (r, ts1) => parseL fuel .termLoop (.mul acc r) args ts1
      | .slash :: rest =>
        match parseL fuel .factor acc args rest with
        | .error e => .error e
        | .ok (r, ts1) => parseL fuel .termLoop (.div acc r) args ts1
      | .slashslash :: rest =>
        match parseL fuel .factor acc args rest with
        | .error e => .error e
        | .ok (r, ts1) => parseL fuel .termLoop (.floordiv acc r) args ts1
      | .percent :: rest =>
        match parseL fuel .factor acc args rest with
        | .error e => .error e
        | .ok (r, ts1) => parseL fuel .termLoop (.mod acc r) args ts1
      | _ => .ok (acc, ts)
    | .factor =>
      match ts with
      | .plus :: rest =>
        match parseL fuel .factor acc args rest with
        | .error e => .error e
        | .ok (r, ts1) => .ok (.pos r, ts1)
      | .minus :: rest =>
        match parseL fuel .factor acc args rest with
        | .error e => .error e
        | .ok (r, ts1) => .ok (.neg r, ts1)
      | _ => parseL fuel .power acc args ts
    | .power =>
      match parseL fuel .trailers acc args ts with
      | .error e => .error e
      | .ok (b, ts1) =>
        match ts1 with
        | .starstar :: rest =>
          match parseL fuel .factor acc args rest with
          | .error e => .error e
          | .ok (r, ts2) => .ok (.pow b r, ts2)
        | _ => .ok (b, ts1)
    | .trailers =>
      match parseL fuel .atom acc args ts with
      | .error e => .error e
      | .ok (a, ts1) => parseL fuel .trailersLoop a args ts1
    | .trailersLoop =>
      match ts with
      | .dot :: .ident n :: rest => parseL fuel .trailersLoop (.attr acc n) args rest
      | .dot :: _ => .error "invalid syntax"
      | .lparen :: .rparen :: rest => parseL fuel .trailersLoop (.call acc []) args rest
      | .lparen :: rest =>
        match parseL fuel .sum acc args rest with
        | .error e => .error e
        | .ok (a1, ts1) => parseL fuel .argsLoop acc [a1] ts1
      | _ => .ok (acc, ts)
    | .argsLoop =>
      match ts with
      | .comma :: rest =>
        match parseL fuel .sum acc args rest with
        | .error e => .error e
        | .ok (a, ts1) => parseL fuel .argsLoop acc (a :: args) ts1
      | .rparen :: rest => parseL fuel .trailersLoop (.call acc args.reverse) args rest
      | _ => .error "invalid syntax"
    | .atom =>
      match ts with
      | .num v :: rest => .ok (.num v, rest)
      | .ident n :: rest => .ok (.ident n, rest)
      | .lparen :: rest =>
        match parseL fuel .sum acc args rest with
        | .error e => .error e
        | .ok (e, ts1) =>
          match ts1 with
          | .rparen :: ts2 => .ok (e, ts2)
          | _ => .error "invalid syntax"
      | _ => .error "invalid syntax"

def parseExpr (ts : List Tok) : Except String (PExpr × List Tok) :=
  parseL ((ts.length + 1) * 8) .sum (.num ⟨0, 1⟩) [] ts

/-- The exact rational value of the IEEE-754 double `math.pi`. -/
def piFloat : PyNum := ⟨884279719003555, 2 ^ 48⟩

/-- The exact rational value of the IEEE-754 double `math.e`. -/
def eFloat : PyNum := ⟨6121026514868073, 2 ^ 51⟩

/-- The `allowed_names` whitelist of `CalculatorTool.execute`: the only
names visible to `eval` (globals carry empty `__builtins__`). -/
def allowedNames : List (String × PyValue) :=
  [("abs", .fn "abs"), ("round", .fn "round"), ("min", .fn "min"),
   ("max", .fn "max"), ("sum", .fn "sum"), ("pow", .fn "pow"),
   ("sqrt", .fn "sqrt"), ("pi", .num piFloat), ("e", .num eFloat)]

def asNums (vs : List PyValue) : Option (List PyNum) :=
  match vs with
  | [] => some []
  | .num a :: rest =>
    match asNums rest with
    | some as2 => some (a :: as2)
    | none => none
  | _ => none

/-- Application of a whitelisted builtin.  `sum` needs an iterable and
the fragment has none, so it always raises; `sqrt` and `pow` are exact
where the model evaluates them (documented above). -/
def applyFn (f : PyValue) (argv : List PyValue) : Except String PyValue :=
  match f with
  | .num _ => .error "float object is not callable"
  | .obj _ => .error "object is not callable"
  | .fn name =>
    match name, argv with
    | "abs", [.num a] => .ok (.num a.abs)
    | "round", [.num a] => .ok (.num ⟨a.pyround, 1⟩)
    | "min", vs =>
      match asNums vs with
      | some (a :: b :: rest) =>
        .ok (.num ((b :: rest).foldl (fun x y => if PyNum.ble x y then x else y) a))
      | _ => .error "bad arguments to min"
    | "max", vs =>
      match asNums vs with
      | some (a :: b :: rest) =>
        .ok (.num ((b :: rest).foldl (fun x y => if PyNum.ble x y then y else x) a))
      | _ => .error "bad arguments to max"
    | "sum", _ => .error "sum argument is not iterable"
    | "pow", [.num a, .num b] =>
      match a.pypow b with
      | .ok v => .ok (.num v)
      | .error e => .error e
    | "sqrt", [.num a] =>
      match a.pysqrt with
      | .ok v => .ok (.num v)
      | .error e => .error e
    | _, _ => .error "bad arguments"

/-- Python attribute access, modelled as far as the claims need it:
every value has a `__class__` attribute (on the calculator's numbers
Python concretely returns `<class 'float'>` or `<class 'int'>`); other
attributes are not modelled and conservatively raise. -/
def getAttr (v : PyValue) (attrName : String) : Except String PyValue :=
  if attrName = "__class__" then .ok (.obj "class")
  else
    match v with
    | _ => .error "attribute not modelled"

def binNum (opName : String) (op : PyNum → PyNum → Except String PyNum)
    (a b : PyValue) : Except String PyValue :=
  match a, b with
  | .num x, .num y =>
    match op x y with
    | .ok v => .ok (.num v)
    | .error e => .error e
  | _, _ => .error ("unsupported operand type for " ++ opName)

/-- The evaluator, fuelled (the recursion depth is bounded by the size
of the expression, itself bounded by the token count, so the fuel
passed by `pyEval` always suffices; the fuel branch is unreachable).
`inl` evaluates one expression, `inr` an argument list. -/
def evalGo : Nat → PExpr ⊕ List PExpr → Except String (PyValue ⊕ List PyValue)
  | 0, _ => .error "internal: evaluator fuel exhausted"
  | _ + 1, .inl (.num v) => .ok (.inl (.num v))
  | _ + 1, .inl (.ident name) =>
    match allowedNames.lookup name with
    | some v => .ok (.inl v)
    | none => .error ("name " ++ name ++ " is not defined")
  | fuel + 1, .inl (.pos e) =>
    match evalGo fuel (.inl e) with
    | .ok (.inl (.num a)) => .ok (.inl (.num a))
    | .ok _ => .error "bad operand type for unary +"
    | .error e => .error e
  | fuel + 1, .inl (.neg e) =>
    match evalGo fuel (.inl e) with
    | .ok (.inl (.num a)) => .ok (.inl (.num a.neg))
    | .ok _ => .error "bad operand type for unary -"
    | .error e => .error e
  | fuel + 1, .inl (.add a b) =>
    match evalGo fuel (.inl a), evalGo fuel (.inl b) with
    | .ok (.inl x), .ok (.inl y) => (binNum "+" (fun u v => .ok (u.add v)) x y).map .inl
    | .error e, _ => .error e
    | _, .error e => .error e
    | _, _ => .error "internal"
  | fuel + 1, .inl (.sub a b) =>
    match evalGo fuel (.inl a), evalGo fuel (.inl b) with
    | .ok (.inl x), .ok (.inl y) => (binNum "-" (fun u v => .ok (u.sub v)) x y).map .inl
    | .error e, _ => .error e
    | _, .error e => .error e
    | _, _ => .error "internal"
  | fuel + 1, .inl (.mul a b) =>
    match evalGo fuel (.inl a), evalGo fuel (.inl b) with
    | .ok (.inl x), .ok (.inl y) => (binNum "*" (fun u v => .ok (u.mul v)) x y).map .inl
    | .error e, _ => .error e
    | _, .error e => .error e
    | _, _ => .error "internal"
  | fuel + 1, .inl (.div a b) =>
    match evalGo fuel (.inl a), evalGo fuel (.inl b) with
    | .ok (.inl x), .ok (.inl y) => (binNum "/" PyNum.div x y).map .inl
    | .error e, _ => .error e
    | _, .error e => .error e
    | _, _ => .error "internal"
  | fuel + 1, .inl (.floordiv a b) =>
    match evalGo fuel (.inl a), evalGo fuel (.inl b) with
    | .ok (.inl x), .ok (.inl y) => (binNum "//" PyNum.floordiv x y).map .inl
    | .error e, _ => .error e
    | _, .error e => .error e
    | _, _ => .error "internal"
  | fuel + 1, .inl (.mod a b) =>
    match evalGo fuel (.inl a), evalGo fuel (.inl b) with
    | .ok (.inl x), .ok (.inl y) => (binNum "%" PyNum.pymod x y).map .inl
    | .error e, _ => .error e
    | _, .error e => .error e
    | _, _ => .error "internal"
  | fuel + 1, .inl (.pow a b) =>
    match evalGo fuel (.inl a), evalGo fuel (.inl b) with
    | .ok (.inl x), .ok (.inl y) => (binNum "**" PyNum.pypow x y).map .inl
    | .error e, _ => .error e
    | _, .error e => .error e
    | _, _ => .error "internal"
  | fuel + 1, .inl (.call f argEs) =>
    match evalGo fuel (.inl f) with
    | .error e => .error e
    | .ok (.inr _) => .error "internal"
    | .ok (.inl fv) =>
      match evalGo fuel (.inr argEs) with
      | .error e => .error e
      | .ok (.inl _) => .error "internal"
      | .ok (.inr argv) => (applyFn fv argv).map .inl
  | fuel + 1, .inl (.attr e name) =>
    match evalGo fuel (.inl e) with
    | .error er => .error er
    | .ok (.inr _) => .error "internal"
    | .ok (.inl v) => (getAttr v name).map .inl
  | _ + 1, .inr [] => .ok (.inr [])
  | fuel + 1, .inr (e :: es) =>
    match evalGo fuel (.inl e) with
    | .error er => .error er
    | .ok (.inr _) => .error "internal"
    | .ok (.inl v) =>
      match evalGo fuel (.inr es) with
      | .error er => .error er
      | .ok (.inl _) => .error "internal"
      | .ok (.inr vs) => .ok (.inr (v :: vs))

/-- Python `eval(text, {"__builtins__": {}}, allowed_names)` on the
expression fragment: tokenize, parse (the whole input must parse), then
evaluate. -/
def pyEval (cs : List Char) : Except String PyValue :=
  match tokenize cs with
  | .error e => .error e
  | .ok ts =>
    match parseExpr ts with
    | .error e => .error e
    | .ok (e, rest) =>
      match rest with
      | [] =>
        match evalGo ((ts.length + 1) * 4) (.inl e) with
        | .ok (.inl v) => .ok v
        | .ok (.inr _) => .error "internal"
        | .error er => .error er
      | _ => .error "invalid syntax"

/-- `CalculatorTool.execute`: rewrite, evaluate, and wrap the outcome in
a `ToolResult`; every evaluation error is caught and reported as a
failure result ("Calculation error: ..."), never raised. -/
def CalculatorTool.execute (expression : List Char) : ToolResult :=
  match pyEval (calcEvalInput expression) with
  | .ok v => { success := true, result := some v }
  | .error e =>
    { success := false, result := none, error := some ("Calculation error: " ++ e) }

/-! ## Claims about the calculator (C4, C10) -/

theorem replacePercent_no_percent (cs : List Char) : '%' ∉ replacePercent cs := by
  induction cs with
  | nil => simp [replacePercent]
  | cons c cs ih =>
    by_cases h : c = '%' <;> simp [replacePercent, h, ih]
    intro hc
    exact absurd hc.symm h

theorem splitOnOf_mem (cs0 : List Char) :
    ∀ p ∈ splitOnOf cs0, ∀ ch ∈ p, ch ∈ cs0 := by
  induction cs0 using splitOnOf.induct with
  | case1 tail ih =>
    intro p hp ch hch
    rw [splitOnOf.eq_1] at hp
    rcases List.mem_cons.mp hp with h | h
    · subst h; cases hch
    · have := ih p h ch hch
      simp [this]
  | case2 head cs hnsep heq ih =>
    intro p hp ch hch
    rw [splitOnOf.eq_2 _ _ hnsep, heq] at hp
    simp only [List.mem_singleton] at hp
    subst hp
    simp only [List.mem_singleton] at hch
    simp [hch]
  | case3 head cs hnsep p' ps heq ih =>
    intro p hp ch hch
    rw [splitOnOf.eq_2 _ _ hnsep, heq] at hp
    rcases List.mem_cons.mp hp with h | h
    · subst h
      rcases List.mem_cons.mp hch with h2 | h2
      · simp [h2]
      · have := ih p' (by rw [heq]; exact List.mem_cons_self _ _) ch h2
        simp [this]
    · have := ih p (by rw [heq]; exact List.mem_cons_of_mem _ h) ch hch
      simp [this]
  | case4 =>
    intro p hp ch hch
    rw [splitOnOf.eq_3] at hp
    simp only [List.mem_singleton] at hp
    subst hp
    cases hch

theorem calcEvalInput_no_percent (cs : List Char) : '%' ∉ calcEvalInput cs := by
  have main : ∀ e1 : List Char, '%' ∉ e1 →
      '%' ∉ (if containsOf e1 then
          match splitOnOf e1 with
          | [a, b] => ('(' :: a) ++ (')' :: ' ' :: '*' :: ' ' :: '(' :: b) ++ [')']
          | _ => e1
        else e1) := by
    intro e1 h1
    split
    · rcases hsp : splitOnOf e1 with _ | ⟨a, _ | ⟨b, _ | ⟨c, rest⟩⟩⟩
      · simp only [hsp]; exact h1
      · simp only [hsp]; exact h1
      · simp only [hsp]
        intro hm
        simp at hm
        rcases hm with h | h
        · exact h1 (splitOnOf_mem _ a (by rw [hsp]; exact List.mem_cons_self _ _) _ h)
        · exact h1 (splitOnOf_mem _ b
            (by rw [hsp]; exact List.mem_cons_of_mem _ (List.mem_cons_self _ _)) _ h)
      · simp only [hsp]; exact h1
    · exact h1
  unfold calcEvalInput
  split
  · exact main _ (replacePercent_no_percent cs)
  · next hnc => exact main _ (fun hm => hnc (List.elem_iff.mpr hm))

/-- C10: every `%` is replaced by `/100` before evaluation, so the text
handed to `eval` never contains a `%` character and `%` never acts as
the modulo operator at the public interface; `"10 % 3"` is evaluated as
`"10 /100 3"` and returns a failure result (never the modulo value 1);
and `execute` itself never raises — every evaluation error becomes a
failure `ToolResult` carrying a "Calculation error: ..." message. -/
theorem C10_percent_never_modulo (cs : List Char) :
    ('%' ∉ calcEvalInput cs) ∧
    (∀ e, pyEval (calcEvalInput cs) = .error e →
      CalculatorTool.execute cs =
        { success := false, result := none,
          error := some ("Calculation error: " ++ e) }) ∧
    calcEvalInput ("10 % 3".toList) = ("10 /100 3").toList ∧
    CalculatorTool.execute ("10 % 3".toList) =
      { success := false, result := none,
        error := some "Calculation error: invalid syntax" } ∧
    CalculatorTool.execute ("10 % 3".toList) ≠
      { success := true, result := some (.num ⟨1, 1⟩) } := by
  refine ⟨calcEvalInput_no_percent cs, ?_, by decide, by decide, by decide⟩
  intro e he
  unfold CalculatorTool.execute
  rw [he]

/-- C10 witness: the error-wrapping conjunct applied at `"10 % 3"`,
whose rewritten form `"10 /100 3"` is a syntax error. -/
theorem C10_percent_never_modulo_witness :
    CalculatorTool.execute ("10 % 3".toList) =
      { success := false, result := none,
        error := some ("Calculation error: " ++ "invalid syntax") } :=
  (C10_percent_never_modulo ("10 % 3".toList)).2.1 "invalid syntax" rfl

/-- C4: the calculator rewrites `%` and `"A of B"` as documented and
computes `"2 + 2" = 4` and `"15% of 250" = 3750/100 = 37.5`; the
evaluation environment is exactly the nine whitelisted names, and a
disallowed bare name fails with a `NameError` failure result.  However,
the claim's requirement that attribute access fail is violated by the
code: `eval` with empty `__builtins__` still resolves attributes, so
`"pi.__class__"` returns a success result (in Python,
`<class 'float'>`) instead of a failure — the documented security
boundary does not hold. -/
theorem C4_calculator_attribute_access_escape :
    CalculatorTool.execute ("2 + 2".toList) =
      { success := true, result := some (.num ⟨4, 1⟩) } ∧
    CalculatorTool.execute ("15% of 250".toList) =
      { success := true, result := some (.num ⟨3750, 100⟩) } ∧
    (⟨3750, 100⟩ : PyNum).toRat = 75 / 2 ∧
    allowedNames.map Prod.fst =
      ["abs", "round", "min", "max", "sum", "pow", "sqrt", "pi", "e"] ∧
    CalculatorTool.execute ("foo + 1".toList) =
      { success := false, result := none,
        error := some "Calculation error: name foo is not defined" } ∧
    CalculatorTool.execute ("pi.__class__".toList) =
      { success := true, result := some (.obj "class") } := by
  refine ⟨by decide, by decide, ?_, by decide, by decide, by decide⟩
  norm_num [PyNum.toRat]
